import Mathlib

set_option autoImplicit false

/-!
Shallow embedding of the DOM layer of p5.js (src/dom/dom.js): the
wrap-and-augment dispatcher, the select and radio option protocols, the
media playback-rate and play logic, the cue scheduler, and the element
removal protocol.  Times and playback rates are modelled as rationals,
host nodes by the facts the code inspects about them.
-/

namespace P5Dom

/-- A JavaScript value as it may be passed as the second argument of
`option(name, value)`: a string or a boolean (the protocol tests
`value === false` by strict equality). `none` at a call site models an
absent argument (`arguments.length` is 1). -/
inductive JVal where
  | str (s : String)
  | bool (b : Bool)
  deriving DecidableEq, Repr

/-- Coercion the DOM applies when a JavaScript value is assigned to a
string-valued node property: strings unchanged, booleans stringified. -/
def JVal.toDomString : JVal → String
  | JVal.str s => s
  | JVal.bool b => cond b "true" "false"

/-! ## Augmentation dispatcher: p5.prototype.wrapElement, dom.js 168-197 -/

/-- The host-node facts the dispatcher inspects: `tagName`, the input
`type` property, and the tag names of the children of the node. -/
structure HostNode where
  tagName : String
  inputType : String
  childTags : List String
  deriving DecidableEq, Repr

/-- The capability the dispatcher attaches to the wrapped node. -/
inductive HandleKind where
  | checkbox
  | media
  | select
  | radioGroup
  | plain
  deriving DecidableEq, Repr

/-- Dispatcher decision, dom.js 168-197: checkbox input, then
VIDEO/AUDIO, then SELECT, then a node with one or more children all of
which are INPUT or LABEL, else a plain element. -/
def wrapElementKind (n : HostNode) : HandleKind :=
  if n.tagName = "INPUT" ∧ n.inputType = "checkbox" then HandleKind.checkbox
  else if n.tagName = "VIDEO" ∨ n.tagName = "AUDIO" then HandleKind.media
  else if n.tagName = "SELECT" then HandleKind.select
  else if 0 < n.childTags.length ∧
          ∀ c ∈ n.childTags, c = "INPUT" ∨ c = "LABEL" then HandleKind.radioGroup
  else HandleKind.plain

/-! ## Select option protocol: createSelect self.option, dom.js 684-716 -/

/-- One entry of the option list of a select element: its label (the
`innerHTML`) and its string `value` property. -/
structure SelectOpt where
  label : String
  value : String
  deriving DecidableEq, Repr

/-- String stored when `option` assigns its raw second argument to the
`value` property of an option node; an absent argument is the JavaScript
`undefined`, which the DOM stringifies. -/
def optValueString : Option JVal → String
  | some v => v.toDomString
  | none => "undefined"

/-- The `option(name, value)` method installed by `createSelect`,
dom.js 684-716.  The source finds the index of the first option whose
`innerHTML` equals `name`; if found and `value === false` it splices
that option out, if found otherwise it updates the value (and the label
too when label and value were identical), and if not found it appends a
fresh option whose value defaults to `name` when no second argument was
passed.  Translated structurally over the option list. -/
def selectOption (name : String) (value : Option JVal) : List SelectOpt → List SelectOpt
  | [] => [⟨name, match value with | some jv => jv.toDomString | none => name⟩]
  | o :: rest =>
    if o.label = name then
      if value = some (JVal.bool false) then rest
      else if o.label = o.value then
        ⟨optValueString value, optValueString value⟩ :: rest
      else
        ⟨o.label, optValueString value⟩ :: rest
    else o :: selectOption name value rest

/-! ## Radio-group accessors: createRadio, dom.js 837-890 -/

/-- A child node of the radio-group container as the accessors see it:
tag name, `value` property and `checked` flag. -/
structure RChild where
  tag : String
  value : String
  checked : Bool
  deriving DecidableEq, Repr

/-- The helper `getInputChildrenArray`, dom.js 837-841: the children of
the container whose tag is INPUT. -/
def getInputChildrenArray (children : List RChild) : List RChild :=
  children.filter (fun c => decide (c.tag = "INPUT"))

/-- JavaScript truthiness of the optional string argument of the radio
accessors: `undefined` and the empty string are falsy. -/
def strTruthy : Option String → Bool
  | some s => decide (s ≠ "")
  | none => false

/-- The string carried by a present argument. -/
def argString : Option String → String
  | some s => s
  | none => ""

/-- Result of a radio accessor call: the handle itself (setter branch),
a string, or the JavaScript `undefined`. -/
inductive RadioRet where
  | handle
  | str (s : String)
  | undef
  deriving DecidableEq, Repr

/-- The marking pass of the setter branch, dom.js 866-868 and 880-882:
every input child whose value equals the argument becomes checked. -/
def radioMark (v : String) (children : List RChild) : List RChild :=
  children.map (fun c =>
    if c.tag = "INPUT" ∧ c.value = v then { c with checked := true } else c)

/-- The getter scan, dom.js 871-873 and 885-887: the first checked
element of the input children. -/
def radioFirstChecked (children : List RChild) : Option RChild :=
  (getInputChildrenArray children).find? (fun c => c.checked)

/-- The `value(value)` accessor installed by `createRadio`,
dom.js 876-890.  The branch test on the argument is `if (value)`, hence
truthiness, not presence. -/
def radioValue (children : List RChild) (arg : Option String) :
    List RChild × RadioRet :=
  if strTruthy arg then
    (radioMark (argString arg) children, RadioRet.handle)
  else
    (children,
      match radioFirstChecked children with
      | some c => RadioRet.str c.value
      | none => RadioRet.str "")

/-- The `selected(value)` accessor installed by `createRadio`,
dom.js 862-875: as `value(value)` but the getter branch falls off the
function without returning when no input child is checked. -/
def radioSelected (children : List RChild) (arg : Option String) :
    List RChild × RadioRet :=
  if strTruthy arg then
    (radioMark (argString arg) children, RadioRet.handle)
  else
    (children,
      match radioFirstChecked children with
      | some c => RadioRet.str c.value
      | none => RadioRet.undef)

/-! ## Media playback rate: speed, dom.js 2866-2876, and the
loadedmetadata listener, dom.js 1107-1119 -/

/-- Playback-rate state of a media handle: the `loadedmetadata` flag,
the optional buffered `presetPlaybackRate` (absent until `speed` is set
before metadata, deleted when materialized), and the playback rate of
the host element. -/
structure MediaRateState where
  loadedmetadata : Bool
  presetPlaybackRate : Option Rat
  playbackRate : Rat
  deriving DecidableEq, Repr

/-- Setter branch of `speed`, dom.js 2870-2874: assign the host rate
when metadata has loaded, else buffer the value as the preset. -/
def speedSet (st : MediaRateState) (val : Rat) : MediaRateState :=
  if st.loadedmetadata then { st with playbackRate := val }
  else { st with presetPlaybackRate := some val }

/-- Getter branch of `speed`, dom.js 2868:
`this.presetPlaybackRate || this.elt.playbackRate`, where an absent
preset and a preset of 0 are both falsy. -/
def speedGet (st : MediaRateState) : Rat :=
  match st.presetPlaybackRate with
  | some v => if v ≠ 0 then v else st.playbackRate
  | none => st.playbackRate

/-- Playback-rate part of the `loadedmetadata` listener installed by
`createMedia`, dom.js 1107-1119: `if (c.presetPlaybackRate)` applies and
deletes the preset (truthiness again: a preset of 0 is neither applied
nor deleted), then `loadedmetadata` becomes true.  The width and height
assignments of the listener touch no field of this state and are
omitted. -/
def onLoadedMetadata (st : MediaRateState) : MediaRateState :=
  let st1 :=
    match st.presetPlaybackRate with
    | some v =>
      if v ≠ 0 then { st with playbackRate := v, presetPlaybackRate := none }
      else st
    | none => st
  { st1 with loadedmetadata := true }

/-! ## Media play: p5.MediaElement.prototype.play, dom.js 2401-2425 -/

/-- The host playback facts `play` inspects: position, duration and the
`readyState` buffering level. -/
structure PlayerState where
  currentTime : Rat
  duration : Rat
  readyState : Nat
  deriving DecidableEq, Repr

/-- Where a rejection of the play promise is routed by the attached
catch handler, dom.js 2413-2422. -/
inductive PlayOutcome where
  | friendlyAutoplayWarning
  | consoleError
  | ok
  deriving DecidableEq, Repr

/-- Observable record of one `play()` call: the host state after the
synchronous part, whether `load()` was forced, whether `play()` was
invoked, and the routing of the promise result. -/
structure PlayTrace where
  state : PlayerState
  reloaded : Bool
  playInvoked : Bool
  outcome : PlayOutcome
  deriving DecidableEq, Repr

/-- `play`, dom.js 2401-2425: rewind to 0 when the position equals the
duration; play directly when `readyState > 1`, else `load()` first; a
promise rejection named NotAllowedError goes to the friendly autoplay
warning, any other rejection to the console error log.  A synchronous
throw escaping to the caller would be `Except.error`; the source catches
every rejection, so the call always returns. -/
def mediaPlay (st : PlayerState) (rejection : Option String) :
    Except String PlayTrace :=
  Except.ok
    { state := if st.currentTime = st.duration then { st with currentTime := 0 } else st
      reloaded := decide (¬ 1 < st.readyState)
      playInvoked := true
      outcome :=
        match rejection with
        | none => PlayOutcome.ok
        | some name =>
          if name = "NotAllowedError" then PlayOutcome.friendlyAutoplayWarning
          else PlayOutcome.consoleError }

/-! ## Cue scheduler: dom.js 3222-3227 and 3280-3390 -/

/-- A scheduled cue, dom.js 3222-3227: id from the ever-incrementing
per-handle counter, trigger time, and the opaque payload passed to the
callback.  The callback itself is represented by the cue record: firing
reports the cues whose callbacks run, in order. -/
structure Cue (α : Type) where
  id : Nat
  time : Rat
  val : α
  deriving DecidableEq, Repr

/-- Cue-scheduler state of one media handle: the id counter, the cue
list, whether the `ontimeupdate` subscription is installed on the host
element, and the `prevTime` watermark. -/
structure CueSched (α : Type) where
  cueIDCounter : Nat
  cues : List (Cue α)
  ontimeupdate : Bool
  prevTime : Rat
  deriving DecidableEq, Repr

/-- `addCue`, dom.js 3280-3291: allocate the next id, append the cue,
and install the `ontimeupdate` subscription when none is installed.
Returns the new state and the id. -/
def addCue {α : Type} (st : CueSched α) (time : Rat) (val : α) :
    CueSched α × Nat :=
  let id := st.cueIDCounter
  let st1 : CueSched α :=
    { st with cueIDCounter := id + 1, cues := st.cues ++ [⟨id, time, val⟩] }
  (if st1.ontimeupdate then st1 else { st1 with ontimeupdate := true }, id)

/-- The splice loop of `removeCue`, dom.js 3323-3328: the index advances
every iteration, also right after `splice(i, 1)` contracted the list. -/
def removeCueLoop {α : Type} (id : Nat) : Nat → List (Cue α) → Nat → List (Cue α)
  | _, cues, 0 => cues
  | i, cues, fuel + 1 =>
    if h : i < cues.length then
      removeCueLoop id (i + 1)
        (if (cues.get ⟨i, h⟩).id = id then cues.eraseIdx i else cues) fuel
    else cues

/-- `removeCue`, dom.js 3322-3333: run the splice loop, then uninstall
the subscription when the cue list became empty. -/
def removeCue {α : Type} (st : CueSched α) (id : Nat) : CueSched α :=
  if (removeCueLoop id 0 st.cues st.cues.length).length = 0 then
    { st with cues := removeCueLoop id 0 st.cues st.cues.length, ontimeupdate := false }
  else { st with cues := removeCueLoop id 0 st.cues st.cues.length }

/-- `clearCues`, dom.js 3369-3372: empty the list and uninstall the
subscription unconditionally. -/
def clearCues {α : Type} (st : CueSched α) : CueSched α :=
  { st with cues := [], ontimeupdate := false }

/-- The firing loop of `onTimeUpdate`, dom.js 3379-3387: walk the cue
list in order and invoke the callback of every cue whose trigger time
lies in `(prevTime, playbackTime]`.  Returns the fired cues in list
order. -/
def fireLoop {α : Type} (prevTime playbackTime : Rat) :
    List (Cue α) → List (Cue α)
  | [] => []
  | c :: rest =>
    if prevTime < c.time ∧ c.time ≤ playbackTime then
      c :: fireLoop prevTime playbackTime rest
    else fireLoop prevTime playbackTime rest

/-- `onTimeUpdate`, dom.js 3376-3390: run the firing loop against the
current playback time, then set the watermark to the playback time in
every case. -/
def onTimeUpdate {α : Type} (st : CueSched α) (playbackTime : Rat) :
    CueSched α × List (Cue α) :=
  ({ st with prevTime := playbackTime }, fireLoop st.prevTime playbackTime st.cues)

/-- The armed-state invariant of the scheduler: the `ontimeupdate`
subscription is installed exactly when the cue list is non-empty. -/
def cueArmed {α : Type} (st : CueSched α) : Prop :=
  st.ontimeupdate = true ↔ st.cues ≠ []

/-! ## Element removal: p5.Element.prototype.remove, dom.js 2141-2164,
and p5.prototype.removeElements, dom.js 217-224 -/

/-- A live media track of a capture stream. -/
structure Track where
  stopped : Bool
  deriving DecidableEq, Repr

/-- The handle facts `remove` touches: identity, whether the handle is a
media element, the capture stream (`srcObject`, absent for URL-backed
media), the keys of the `_events` table, the listeners actually attached
to the host node, and whether the node hangs under a parent. -/
structure HandleState where
  hid : Nat
  isMedia : Bool
  srcObject : Option (List Track)
  events : List String
  hostListeners : List String
  attachedToParent : Bool
  deriving DecidableEq, Repr

/-- `indexOf` followed by `splice(index, 1)`: erase the first occurrence
of the id from the registry, dom.js 2152-2155. -/
def eraseFirstId (id : Nat) : List Nat → List Nat
  | [] => []
  | x :: xs => if x = id then xs else x :: eraseFirstId id xs

/-- The part of `remove` past the track-stopping block, dom.js
2151-2163: splice the handle out of the registry, call
`removeEventListener` for every key of the `_events` table (the table
itself is not cleared), and unlink the node from its parent. -/
def removeRest (h : HandleState) (registry : List Nat) :
    HandleState × List Nat :=
  ({ h with
      hostListeners := h.hostListeners.filter (fun ev => decide (ev ∉ h.events)),
      attachedToParent := false },
    eraseFirstId h.hid registry)

/-- `remove`, dom.js 2141-2164: for a media handle the source reads
`this.elt.srcObject.getTracks()` with no null guard, a TypeError when no
capture stream was ever attached; with a stream, every track is stopped;
then the shared teardown runs. -/
def elementRemove (h : HandleState) (registry : List Nat) :
    Except String (HandleState × List Nat) :=
  if h.isMedia then
    match h.srcObject with
    | none =>
      Except.error "TypeError: Cannot read properties of null (reading getTracks)"
    | some tracks =>
      Except.ok (removeRest { h with srcObject := some (tracks.map (fun _ => ⟨true⟩)) } registry)
  else Except.ok (removeRest h registry)

/-- A registered handle as the bulk cleanup sees it: identity and
whether its host node is a canvas. -/
structure RegHandle where
  rid : Nat
  isCanvas : Bool
  deriving DecidableEq, Repr

/-- The registry splice performed by `remove` on behalf of one handle:
erase its first occurrence. -/
def eraseHandle (e : RegHandle) : List RegHandle → List RegHandle
  | [] => []
  | x :: xs => if x = e then xs else x :: eraseHandle e xs

/-- The `removeElements` loop, dom.js 219-223: index over
`this._elements` while `remove()` splices handles out of that same
array; the index still advances after a removal. -/
def removeElementsLoop : Nat → List RegHandle → Nat → List RegHandle
  | _, elements, 0 => elements
  | i, elements, fuel + 1 =>
    if h : i < elements.length then
      removeElementsLoop (i + 1)
        (if (elements.get ⟨i, h⟩).isCanvas then elements
         else eraseHandle (elements.get ⟨i, h⟩) elements) fuel
    else elements

/-- `removeElements`, dom.js 217-224: run the loop from index 0.  The
loop body runs at most once per initial position, so the initial length
bounds the iteration count. -/
def removeElements (elements : List RegHandle) : List RegHandle :=
  removeElementsLoop 0 elements elements.length

/-! ## Theorems -/

/-- The firing loop is the filter of the cue list by the open-closed
window, hence preserves the order of the list. -/
theorem fireLoop_eq_filter {α : Type} (p t : Rat) (cues : List (Cue α)) :
    fireLoop p t cues = cues.filter (fun c => decide (p < c.time ∧ c.time ≤ t)) := by
  induction cues with
  | nil => rfl
  | cons c rest ih =>
    by_cases h : p < c.time ∧ c.time ≤ t
    · simp [fireLoop, List.filter_cons, h, ih]
    · simp [fireLoop, List.filter_cons, h, ih]

/-- Claim C1: on a time-update notification carrying `playbackTime`,
exactly the cues whose trigger time lies in the open-closed interval
from `prevTime` to `playbackTime` fire, each with its payload, in the
order they stand in the cue list (insertion order: `addCue` appends,
never reorders by trigger time); afterwards the watermark equals
`playbackTime` whether or not any cue fired, so a backward update fires
no cue and only resets the watermark. -/
theorem onTimeUpdate_fires_exactly_window {α : Type} (st : CueSched α)
    (t : Rat) (time : Rat) (v : α) :
    (onTimeUpdate st t).2 =
      st.cues.filter (fun c => decide (st.prevTime < c.time ∧ c.time ≤ t)) ∧
    (onTimeUpdate st t).1 = { st with prevTime := t } ∧
    (t < st.prevTime → (onTimeUpdate st t).2 = []) ∧
    (addCue st time v).1.cues = st.cues ++ [⟨st.cueIDCounter, time, v⟩] := by
  refine ⟨by simp [onTimeUpdate, fireLoop_eq_filter], rfl, ?_, ?_⟩
  · intro hback
    simp only [onTimeUpdate, fireLoop_eq_filter]
    refine List.filter_eq_nil_iff.mpr (fun c _ => ?_)
    simp only [decide_eq_true_eq, not_and]
    intro h1 h2
    exact absurd (h1.trans (lt_of_le_of_lt h2 hback)) (lt_irrefl _)
  · simp only [addCue]
    split <;> rfl

/-- Concrete run of the firing rule: with cues at 1/2, 1 and 5/2, a
forward update from watermark 3/5 to 6/5 fires exactly the cue at 1,
and a backward update from watermark 3/5 fires nothing. -/
theorem onTimeUpdate_fires_exactly_window_witness :
    (onTimeUpdate
      (⟨3, [⟨0, mkRat 1 2, 10⟩, ⟨1, 1, 20⟩, ⟨2, mkRat 5 2, 30⟩], true, mkRat 3 5⟩ : CueSched Nat)
      (mkRat 6 5)).2 = [⟨1, 1, 20⟩] ∧
    (onTimeUpdate
      (⟨3, [⟨0, mkRat 1 2, 10⟩, ⟨1, 1, 20⟩, ⟨2, mkRat 5 2, 30⟩], true, mkRat 3 5⟩ : CueSched Nat)
      (mkRat 1 4)).2 = [] := by
  constructor
  · rw [(onTimeUpdate_fires_exactly_window
      (⟨3, [⟨0, mkRat 1 2, 10⟩, ⟨1, 1, 20⟩, ⟨2, mkRat 5 2, 30⟩], true, mkRat 3 5⟩ : CueSched Nat)
      (mkRat 6 5) 0 0).1]
    decide
  · exact (onTimeUpdate_fires_exactly_window
      (⟨3, [⟨0, mkRat 1 2, 10⟩, ⟨1, 1, 20⟩, ⟨2, mkRat 5 2, 30⟩], true, mkRat 3 5⟩ : CueSched Nat)
      (mkRat 1 4) 0 (0 : Nat)).2.2.1 (by decide)

/-- Claim C3: the dispatcher decides the attached capability first match
wins: a checkbox input, then audio or video, then a select control, then
a container with one or more children all of which are INPUT or LABEL,
else a plain element handle. -/
theorem wrapElement_dispatch_order (n : HostNode) :
    (n.tagName = "INPUT" ∧ n.inputType = "checkbox" →
      wrapElementKind n = HandleKind.checkbox) ∧
    (¬(n.tagName = "INPUT" ∧ n.inputType = "checkbox") →
      (n.tagName = "VIDEO" ∨ n.tagName = "AUDIO") →
      wrapElementKind n = HandleKind.media) ∧
    (¬(n.tagName = "INPUT" ∧ n.inputType = "checkbox") →
      ¬(n.tagName = "VIDEO" ∨ n.tagName = "AUDIO") →
      n.tagName = "SELECT" →
      wrapElementKind n = HandleKind.select) ∧
    (¬(n.tagName = "INPUT" ∧ n.inputType = "checkbox") →
      ¬(n.tagName = "VIDEO" ∨ n.tagName = "AUDIO") →
      n.tagName ≠ "SELECT" →
      (0 < n.childTags.length ∧ ∀ c ∈ n.childTags, c = "INPUT" ∨ c = "LABEL") →
      wrapElementKind n = HandleKind.radioGroup) ∧
    (¬(n.tagName = "INPUT" ∧ n.inputType = "checkbox") →
      ¬(n.tagName = "VIDEO" ∨ n.tagName = "AUDIO") →
      n.tagName ≠ "SELECT" →
      ¬(0 < n.childTags.length ∧ ∀ c ∈ n.childTags, c = "INPUT" ∨ c = "LABEL") →
      wrapElementKind n = HandleKind.plain) := by
  unfold wrapElementKind
  refine ⟨fun h1 => ?_, fun h1 h2 => ?_, fun h1 h2 h3 => ?_,
    fun h1 h2 h3 h4 => ?_, fun h1 h2 h3 h4 => ?_⟩ <;> split_ifs <;> tauto

/-- Concrete dispatch runs: a checkbox input gets the checkbox
capability, and a DIV whose two children are an INPUT and a LABEL gets
the radio-group capability. -/
theorem wrapElement_dispatch_order_witness :
    wrapElementKind ⟨"INPUT", "checkbox", []⟩ = HandleKind.checkbox ∧
    wrapElementKind ⟨"DIV", "", ["INPUT", "LABEL"]⟩ = HandleKind.radioGroup := by
  constructor
  · exact (wrapElement_dispatch_order ⟨"INPUT", "checkbox", []⟩).1 ⟨rfl, rfl⟩
  · exact (wrapElement_dispatch_order ⟨"DIV", "", ["INPUT", "LABEL"]⟩).2.2.2.1
      (by decide) (by decide) (by decide) (by decide)

/-- Appending branch of the select protocol: when no option label
matches, `option` appends a fresh option whose value is the stringified
argument, or the label itself when no argument was passed. -/
theorem selectOption_no_match (name : String) (value : Option JVal)
    (opts : List SelectOpt) (h : ∀ p ∈ opts, p.label ≠ name) :
    selectOption name value opts =
      opts ++ [⟨name, match value with | some jv => jv.toDomString | none => name⟩] := by
  induction opts with
  | nil => rfl
  | cons o rest ih =>
    have ho : ¬ o.label = name := h o (List.mem_cons_self o rest)
    simp only [selectOption, if_neg ho, List.cons_append]
    exact congrArg (List.cons o) (ih (fun p hp => h p (List.mem_cons_of_mem o hp)))

/-- First-match branch of the select protocol: with the first matching
option exposed by the list decomposition, `option` removes it when the
argument is the boolean false, else updates it in place. -/
theorem selectOption_found (name : String) (value : Option JVal)
    (pre post : List SelectOpt) (o : SelectOpt)
    (hpre : ∀ p ∈ pre, p.label ≠ name) (ho : o.label = name) :
    selectOption name value (pre ++ o :: post) =
      pre ++ (if value = some (JVal.bool false) then post
              else (if o.label = o.value
                    then (⟨optValueString value, optValueString value⟩ : SelectOpt)
                    else ⟨o.label, optValueString value⟩) :: post) := by
  induction pre with
  | nil =>
    simp only [List.nil_append, selectOption, if_pos ho]
    by_cases hf : value = some (JVal.bool false)
    · rw [if_pos hf, if_pos hf]
    · rw [if_neg hf, if_neg hf]
      by_cases hov : o.label = o.value
      · rw [if_pos hov, if_pos hov]
      · rw [if_neg hov, if_neg hov]
  | cons p rest ih =>
    have hp : ¬ p.label = name := hpre p (List.mem_cons_self p rest)
    simp only [List.cons_append, selectOption, if_neg hp]
    exact congrArg (List.cons p) (ih (fun q hq => hpre q (List.mem_cons_of_mem p hq)))

/-- Claim C2: `option(name, value)` acts on the first option whose label
matches: it removes it when the value argument is the boolean false, and
otherwise updates its value, updating the label too exactly when label
and value were previously identical; with no match it appends a fresh
option whose value defaults to the label when no value argument is
supplied; and a removed option is never resurrected, a later call with
the same label appending a fresh option instead. -/
theorem selectOption_protocol (pre post : List SelectOpt) (o : SelectOpt)
    (name : String) (value : Option JVal)
    (hpre : ∀ p ∈ pre, p.label ≠ name) (ho : o.label = name) :
    (selectOption name (some (JVal.bool false)) (pre ++ o :: post) = pre ++ post) ∧
    (value ≠ some (JVal.bool false) →
      selectOption name value (pre ++ o :: post) =
        pre ++ (if o.label = o.value
                then (⟨optValueString value, optValueString value⟩ : SelectOpt)
                else ⟨o.label, optValueString value⟩) :: post) ∧
    (∀ opts : List SelectOpt, (∀ p ∈ opts, p.label ≠ name) →
      selectOption name none opts = opts ++ [⟨name, name⟩] ∧
      ∀ jv : JVal, selectOption name (some jv) opts = opts ++ [⟨name, jv.toDomString⟩]) ∧
    ((∀ p ∈ post, p.label ≠ name) →
      selectOption name value
          (selectOption name (some (JVal.bool false)) (pre ++ o :: post)) =
        (pre ++ post) ++
          [⟨name, match value with | some jv => jv.toDomString | none => name⟩]) := by
  refine ⟨?_, ?_, ?_, ?_⟩
  · rw [selectOption_found name (some (JVal.bool false)) pre post o hpre ho, if_pos rfl]
  · intro hv
    rw [selectOption_found name value pre post o hpre ho, if_neg hv]
  · intro opts hopts
    exact ⟨selectOption_no_match name none opts hopts,
      fun jv => selectOption_no_match name (some jv) opts hopts⟩
  · intro hpost
    rw [selectOption_found name (some (JVal.bool false)) pre post o hpre ho, if_pos rfl]
    exact selectOption_no_match name value (pre ++ post)
      (fun p hp => (List.mem_append.mp hp).elim (hpre p) (hpost p))

/-- Concrete select scenario: option a with value x is removed by a call
with the boolean false, and a later call with label a and value y
appends a fresh option, no resurrection of the removed one. -/
theorem selectOption_protocol_witness :
    selectOption "a" (some (JVal.bool false)) [⟨"a", "x"⟩] = [] ∧
    selectOption "a" (some (JVal.str "y"))
        (selectOption "a" (some (JVal.bool false)) [⟨"a", "x"⟩]) = [⟨"a", "y"⟩] := by
  have h := selectOption_protocol [] [] ⟨"a", "x"⟩ "a" (some (JVal.str "y"))
    (fun p hp => absurd hp (List.not_mem_nil p)) rfl
  refine ⟨h.1, ?_⟩
  have h2 := h.2.2.2 (fun p hp => absurd hp (List.not_mem_nil p))
  simpa using h2

/-- The splice loop of an empty cue list is empty. -/
theorem removeCueLoop_nil {α : Type} (id i fuel : Nat) :
    removeCueLoop (α := α) id i [] fuel = [] := by
  cases fuel <;> simp [removeCueLoop]

/-- Claim C4: the three cue-lifecycle operations keep the subscription
installed exactly when the cue list is non-empty: `addCue` installs the
subscription when none is installed (and the appended cue makes the list
non-empty), a `removeCue` that empties the list uninstalls it, and
`clearCues` empties the list and uninstalls it unconditionally. -/
theorem cueSched_subscription_invariant {α : Type} (st : CueSched α)
    (hinv : cueArmed st) (time : Rat) (v : α) (id : Nat) :
    cueArmed (addCue st time v).1 ∧
    (addCue st time v).1.ontimeupdate = true ∧
    cueArmed (removeCue st id) ∧
    ((removeCue st id).cues = [] → (removeCue st id).ontimeupdate = false) ∧
    cueArmed (clearCues st) ∧
    (clearCues st).cues = [] ∧ (clearCues st).ontimeupdate = false := by
  have hadd : (addCue st time v).1.ontimeupdate = true ∧
      (addCue st time v).1.cues = st.cues ++ [⟨st.cueIDCounter, time, v⟩] := by
    simp only [addCue]
    split
    · next h => exact ⟨h, rfl⟩
    · exact ⟨rfl, rfl⟩
  refine ⟨?_, hadd.1, ?_, ?_, ?_, rfl, rfl⟩
  · unfold cueArmed
    rw [hadd.1, hadd.2]
    simp
  · unfold cueArmed removeCue
    split
    · next hlen =>
      simp only [List.length_eq_zero] at hlen
      simp [hlen]
    · next hlen =>
      have hne : st.cues ≠ [] := by
        intro hnil
        apply hlen
        rw [hnil, removeCueLoop_nil]
        rfl
      constructor
      · intro _ habs
        have hnil : removeCueLoop id 0 st.cues st.cues.length = [] := habs
        exact hlen (by rw [hnil]; rfl)
      · intro _
        exact hinv.mpr hne
  · unfold removeCue
    split
    · next hlen =>
      intro _
      rfl
    · next hlen =>
      intro habs
      have hnil : removeCueLoop id 0 st.cues st.cues.length = [] := habs
      exact absurd (by rw [hnil]; rfl) hlen
  · unfold cueArmed clearCues
    simp

/-- Concrete run of the subscription invariant: starting from the idle
state, `addCue` arms the scheduler and `clearCues` returns it to idle. -/
theorem cueSched_subscription_invariant_witness :
    cueArmed ((addCue (⟨0, [], false, 0⟩ : CueSched Nat) 1 7).1) ∧
    (addCue (⟨0, [], false, 0⟩ : CueSched Nat) 1 7).1.ontimeupdate = true ∧
    cueArmed (clearCues (⟨0, [], false, 0⟩ : CueSched Nat)) := by
  have h := cueSched_subscription_invariant (⟨0, [], false, 0⟩ : CueSched Nat)
    (by unfold cueArmed; simp) 1 7 0
  exact ⟨h.1, h.2.1, h.2.2.2.2.1⟩

/-- Unfolding of the getter branch of the radio `value` accessor. -/
theorem radioValue_none_eq (l : List RChild) :
    radioValue l none =
      (l, match radioFirstChecked l with
          | some c => RadioRet.str c.value
          | none => RadioRet.str "") := rfl

/-- Unfolding of the getter branch of the radio `selected` accessor. -/
theorem radioSelected_none_eq (l : List RChild) :
    radioSelected l none =
      (l, match radioFirstChecked l with
          | some c => RadioRet.str c.value
          | none => RadioRet.undef) := rfl

/-- Claim C5 counterexample: a call of `value` with the empty string, an
argument but a falsy one, on a group whose single input child carries
the empty-string value does not mark that child checked and does not
return the handle: the truthiness test `if (value)` routes the call to
the getter branch, which reports the empty string with the child still
unchecked (`selected` likewise returns undefined). -/
theorem radio_falsy_arg_counterexample :
    radioValue [⟨"INPUT", "", false⟩] (some "") =
      ([⟨"INPUT", "", false⟩], RadioRet.str "") ∧
    radioSelected [⟨"INPUT", "", false⟩] (some "") =
      ([⟨"INPUT", "", false⟩], RadioRet.undef) ∧
    ([(⟨"INPUT", "", false⟩ : RChild)], RadioRet.str "") ≠
      ([(⟨"INPUT", "", true⟩ : RChild)], RadioRet.handle) := by decide

/-- Claim C5 (amended): with a truthy argument — a nonempty string; a
falsy argument such as the empty string is routed to the getter branch —
`selected` and `value` mark every input child whose value equals the
argument as checked and return the handle; with no argument they scan
only the input children, never label children, returning the value of
the first checked input child, with the empty string for `value` and the
JavaScript undefined for `selected` when no input child is checked. -/
theorem radio_accessor_protocol (children : List RChild) (s : String) (hs : s ≠ "") :
    ((radioValue children (some s)).2 = RadioRet.handle ∧
      (radioSelected children (some s)).2 = RadioRet.handle ∧
      (radioValue children (some s)).1 = radioMark s children ∧
      (radioSelected children (some s)).1 = radioMark s children) ∧
    (∀ i : Nat, (radioMark s children)[i]? =
      children[i]?.map (fun c =>
        if c.tag = "INPUT" ∧ c.value = s then { c with checked := true } else c)) ∧
    ((radioValue children none).1 = children ∧
      (radioValue children none).2 =
        RadioRet.str
          ((((children.filter (fun c => decide (c.tag = "INPUT"))).find?
              (fun c => c.checked)).map (fun c => c.value)).getD "")) ∧
    (∀ lab : RChild, lab.tag = "LABEL" →
      (radioValue (lab :: children) none).2 = (radioValue children none).2 ∧
      (radioSelected (lab :: children) none).2 = (radioSelected children none).2) ∧
    ((children.filter (fun c => decide (c.tag = "INPUT"))).all (fun c => !c.checked) = true →
      (radioValue children none).2 = RadioRet.str "" ∧
      (radioSelected children none).2 = RadioRet.undef) := by
  have htr : strTruthy (some s) = true := by simp [strTruthy, hs]
  have hset : radioValue children (some s) = (radioMark s children, RadioRet.handle) := by
    simp [radioValue, htr, argString]
  have hsetsel : radioSelected children (some s) = (radioMark s children, RadioRet.handle) := by
    simp [radioSelected, htr, argString]
  refine ⟨⟨by rw [hset], by rw [hsetsel], by rw [hset], by rw [hsetsel]⟩, ?_, ?_, ?_, ?_⟩
  · intro i
    simp [radioMark, List.getElem?_map]
  · refine ⟨by rw [radioValue_none_eq], ?_⟩
    rw [radioValue_none_eq]
    unfold radioFirstChecked getInputChildrenArray
    cases hfind : (children.filter (fun c => decide (c.tag = "INPUT"))).find?
        (fun c => c.checked) with
    | none => simp [hfind]
    | some c => simp [hfind]
  · intro lab hlab
    have hfc : radioFirstChecked (lab :: children) = radioFirstChecked children := by
      unfold radioFirstChecked getInputChildrenArray
      rw [List.filter_cons_of_neg]
      simp [hlab]
    constructor
    · rw [radioValue_none_eq, radioValue_none_eq, hfc]
    · rw [radioSelected_none_eq, radioSelected_none_eq, hfc]
  · intro hall
    have hnone : radioFirstChecked children = none := by
      unfold radioFirstChecked getInputChildrenArray
      rw [List.find?_eq_none]
      intro x hx
      have hx2 := List.all_eq_true.mp hall x hx
      simp only [Bool.not_eq_true'] at hx2
      simp [hx2]
    constructor
    · rw [radioValue_none_eq, hnone]
    · rw [radioSelected_none_eq, hnone]

/-- Concrete radio scenario: before any selection `value` returns the
empty string; `selected` applied to the string 2 on a group with an
input of value 2 marks it checked, and `value` then returns 2. -/
theorem radio_accessor_protocol_witness :
    (radioValue [⟨"INPUT", "1", false⟩, ⟨"LABEL", "", false⟩, ⟨"INPUT", "2", false⟩]
        none).2 = RadioRet.str "" ∧
    (radioSelected [⟨"INPUT", "1", false⟩, ⟨"LABEL", "", false⟩, ⟨"INPUT", "2", false⟩]
        (some "2")).1 =
      [⟨"INPUT", "1", false⟩, ⟨"LABEL", "", false⟩, ⟨"INPUT", "2", true⟩] ∧
    (radioValue [⟨"INPUT", "1", false⟩, ⟨"LABEL", "", false⟩, ⟨"INPUT", "2", true⟩]
        none).2 = RadioRet.str "2" := by
  have h1 := radio_accessor_protocol
    [⟨"INPUT", "1", false⟩, ⟨"LABEL", "", false⟩, ⟨"INPUT", "2", false⟩] "2" (by decide)
  have h2 := radio_accessor_protocol
    [⟨"INPUT", "1", false⟩, ⟨"LABEL", "", false⟩, ⟨"INPUT", "2", true⟩] "2" (by decide)
  refine ⟨(h1.2.2.2.2 (by decide)).1, ?_, ?_⟩
  · rw [h1.1.2.2.2]
    decide
  · rw [h2.2.2.1.2]
    decide

/-- Claim C6 counterexample: speed 0 called before metadata loads is
buffered but never materialized: the metadata listener tests the preset
for truthiness, so after the metadata notification the host playback
rate is unchanged at 1 rather than 0, and the preset is not deleted. -/
theorem speed_preset_zero_counterexample :
    (speedSet ⟨false, none, 1⟩ 0).presetPlaybackRate = some 0 ∧
    (onLoadedMetadata (speedSet ⟨false, none, 1⟩ 0)).playbackRate = 1 ∧
    (1 : Rat) ≠ 0 ∧
    (onLoadedMetadata (speedSet ⟨false, none, 1⟩ 0)).presetPlaybackRate = some 0 := by
  decide

/-- Claim C6 (amended): for a nonzero value v, speed v called before
metadata has loaded leaves the host playback rate unchanged and buffers
v as the preset; the metadata notification then sets the host playback
rate to v and deletes the preset (materialized once, then discarded);
and speed v called after metadata has loaded sets the host playback rate
immediately.  The zero value is excluded: the listener tests the preset
for truthiness, so a preset of 0 is neither applied nor deleted. -/
theorem speed_preset_materialization (st : MediaRateState) (v : Rat)
    (hv : v ≠ 0) (hlm : st.loadedmetadata = false) :
    (speedSet st v).playbackRate = st.playbackRate ∧
    (speedSet st v).presetPlaybackRate = some v ∧
    (onLoadedMetadata (speedSet st v)).playbackRate = v ∧
    (onLoadedMetadata (speedSet st v)).presetPlaybackRate = none ∧
    (onLoadedMetadata (speedSet st v)).loadedmetadata = true ∧
    (∀ st2 : MediaRateState, st2.loadedmetadata = true →
      (speedSet st2 v).playbackRate = v) := by
  have h1 : speedSet st v = { st with presetPlaybackRate := some v } := by
    simp [speedSet, hlm]
  refine ⟨by rw [h1], by rw [h1], ?_, ?_, ?_, ?_⟩
  · rw [h1]; simp [onLoadedMetadata, hv]
  · rw [h1]; simp [onLoadedMetadata, hv]
  · rw [h1]; simp [onLoadedMetadata, hv]
  · intro st2 h2
    simp [speedSet, h2]

/-- Concrete preset run: speed 2 before metadata leaves the rate at 1;
after the metadata notification the rate is 2 and the preset is gone. -/
theorem speed_preset_materialization_witness :
    (speedSet ⟨false, none, 1⟩ 2).playbackRate = 1 ∧
    (onLoadedMetadata (speedSet ⟨false, none, 1⟩ 2)).playbackRate = 2 ∧
    (onLoadedMetadata (speedSet ⟨false, none, 1⟩ 2)).presetPlaybackRate = none := by
  have h := speed_preset_materialization ⟨false, none, 1⟩ 2 (by decide) rfl
  exact ⟨h.1, h.2.2.1, h.2.2.2.1⟩

/-- Claim C10: the speed getter returns the buffered preset whenever one
is pending (pending as the claim defines it: set and nonzero), and
returns the host playback rate exactly when no nonzero preset is
pending. -/
theorem speedGet_prefers_pending_preset (st : MediaRateState) :
    (∀ v : Rat, st.presetPlaybackRate = some v → v ≠ 0 → speedGet st = v) ∧
    ((¬ ∃ v : Rat, st.presetPlaybackRate = some v ∧ v ≠ 0) →
      speedGet st = st.playbackRate) := by
  constructor
  · intro v hv hvz
    simp [speedGet, hv, hvz]
  · intro hno
    cases hp : st.presetPlaybackRate with
    | none => simp [speedGet, hp]
    | some v =>
      by_cases hvz : v = 0
      · simp [speedGet, hp, hvz]
      · exact absurd ⟨v, hp, hvz⟩ hno

/-- Concrete getter runs: a pending preset of 2 is reported instead of
the host rate 1; with no preset the host rate 3 is reported. -/
theorem speedGet_prefers_pending_preset_witness :
    speedGet ⟨false, some 2, 1⟩ = 2 ∧ speedGet ⟨true, none, 3⟩ = 3 := by
  refine ⟨(speedGet_prefers_pending_preset ⟨false, some 2, 1⟩).1 2 rfl (by decide), ?_⟩
  exact (speedGet_prefers_pending_preset ⟨true, none, 3⟩).2
    (by rintro ⟨v, hv, -⟩; cases hv)

/-- Claim C7: play rewinds the position to 0 exactly when it equals the
duration, plays directly when the host reports readyState above 1 and
forces a reload before playing otherwise, never throws to the caller,
routes a NotAllowedError rejection to the friendly autoplay warning and
any other rejection to the console error log. -/
theorem mediaPlay_routing (st : PlayerState) (rej : Option String) :
    (∃ tr : PlayTrace, mediaPlay st rej = Except.ok tr) ∧
    (∀ tr : PlayTrace, mediaPlay st rej = Except.ok tr →
      (st.currentTime = st.duration → tr.state = { st with currentTime := 0 }) ∧
      (st.currentTime ≠ st.duration → tr.state = st) ∧
      (1 < st.readyState → tr.reloaded = false) ∧
      (¬ 1 < st.readyState → tr.reloaded = true) ∧
      tr.playInvoked = true ∧
      (rej = some "NotAllowedError" → tr.outcome = PlayOutcome.friendlyAutoplayWarning) ∧
      (∀ e : String, rej = some e → e ≠ "NotAllowedError" →
        tr.outcome = PlayOutcome.consoleError) ∧
      (rej = none → tr.outcome = PlayOutcome.ok)) := by
  refine ⟨⟨_, rfl⟩, ?_⟩
  intro tr htr
  injection htr with h
  subst h
  refine ⟨?_, ?_, ?_, ?_, rfl, ?_, ?_, ?_⟩
  · intro hc; simp [if_pos hc]
  · intro hc; simp [if_neg hc]
  · intro hr; simp [hr]
  · intro hr; simp [hr]
  · intro hrej; subst hrej; rfl
  · intro e hrej hne
    subst hrej
    simp [hne]
  · intro hrej; subst hrej; rfl

/-- Concrete play run: position equals duration so the call rewinds,
readyState 0 forces a reload, and a NotAllowedError rejection lands in
the friendly autoplay warning, not a throw. -/
theorem mediaPlay_routing_witness :
    ∃ tr : PlayTrace, mediaPlay ⟨5, 5, 0⟩ (some "NotAllowedError") = Except.ok tr ∧
      tr.state.currentTime = 0 ∧ tr.reloaded = true ∧
      tr.outcome = PlayOutcome.friendlyAutoplayWarning := by
  obtain ⟨tr, htr⟩ := (mediaPlay_routing ⟨5, 5, 0⟩ (some "NotAllowedError")).1
  have h := (mediaPlay_routing ⟨5, 5, 0⟩ (some "NotAllowedError")).2 tr htr
  refine ⟨tr, htr, ?_, ?_, ?_⟩
  · rw [h.1 rfl]
  · exact h.2.2.2.1 (by decide)
  · exact h.2.2.2.2.2.1 rfl

/-- Claim C8 (code-bug evidence): remove on a media handle that owns no
capture stream — srcObject null, the state of every URL-backed media
handle — throws a TypeError on the FIRST call already: the source reads
srcObject.getTracks() with no null guard, so remove is not even safe
once, let alone idempotent, on such handles. -/
theorem remove_null_srcObject_throws :
    elementRemove ⟨0, true, none, [], [], true⟩ [0] =
      Except.error "TypeError: Cannot read properties of null (reading getTracks)" := rfl

/-- Claim C9 (code-bug evidence): with two non-canvas handles
registered, the bulk cleanup removes only the first: remove splices the
handle out of the very array the loop is indexing and the index still
advances, so the handle shifted into the vacated position is skipped and
stays registered, contradicting the stated contract that only
canvas-bearing handles remain. -/
theorem removeElements_skips_shifted_handle :
    removeElements [⟨0, false⟩, ⟨1, false⟩] = [⟨1, false⟩] ∧
    (removeElements [⟨0, false⟩, ⟨1, false⟩]).all (fun e => e.isCanvas) = false := by
  decide

end P5Dom
